import Mathlib

/-!
# Sponsor-Tracker front-end (`src/frontend/app.js`)

A shallow embedding of the four flows of `app.js` (`connectWallet`, `addSponsor`,
`fetchSponsors`, `withdrawFunds`) as pure state-passing functions.

* The module-level variables `web3`, `contract`, `userAccount` and the children of the
  `#sponsorList` element form the state; `undefined` is `none`.
* Every observable effect (alert, console output, provider request, contract `send` or `call`)
  is appended to `AppState.trace`, so call counts are counts over the trace.
* What the outside world answers during one run (the injected provider, the authorization
  prompt, the account list, the transaction, the read call, the `web3.utils` conversions) is
  an `Env`.
* An `async` function returns an `Outcome`: its promise is fulfilled or rejected.
* `fetchSponsors()` is started without `await` by its two callers as their last statement; with
  no other handler interleaved its effects follow the effects of the caller, which is how it is
  sequenced here.
* The two input fields and the list element are taken to exist in the page.
* `contractABI` is the placeholder of the source (an empty array to be pasted over); the three
  methods named at the call sites are taken to be declared by the pasted schema.
-/

namespace SponsorTracker

/-! ## ECMAScript semantics of `amount <= 0` for a string `amount` -/

/-- Abstract Number values, as far as a comparison with zero can tell them apart: the finite
case keeps the mathematical value `± mantissa * 10 ^ exp10` of the literal before rounding. -/
inductive JSNumber where
  | nan
  | inf (negative : Bool)
  | fin (negative : Bool) (mantissa : Nat) (exp10 : Int)
  deriving DecidableEq, Repr

/-- The code points of `StrWhiteSpaceChar` (WhiteSpace and LineTerminator). -/
def isStrWhiteSpaceChar (c : Char) : Bool :=
  [0x09, 0x0A, 0x0B, 0x0C, 0x0D, 0x20, 0xA0, 0x1680, 0x2000, 0x2001, 0x2002, 0x2003, 0x2004,
    0x2005, 0x2006, 0x2007, 0x2008, 0x2009, 0x200A, 0x2028, 0x2029, 0x202F, 0x205F, 0x3000,
    0xFEFF].contains c.toNat

/-- The characters `0` to `9`. -/
def isDecimalDigit (c : Char) : Bool :=
  decide (48 ≤ c.toNat) && decide (c.toNat ≤ 57)

/-- The value of a decimal digit character. -/
def digitValue (c : Char) : Nat :=
  c.toNat - 48

/-- The value of a string of decimal digits, most significant digit first. -/
def decimalValue (cs : List Char) : Nat :=
  cs.foldl (fun acc c => 10 * acc + digitValue c) 0

/-- The value of a digit character in a radix up to 16, when it is one. -/
def radixDigitValue (radix : Nat) (c : Char) : Option Nat :=
  let v : Option Nat :=
    if isDecimalDigit c then some (c.toNat - 48)
    else if decide (97 ≤ c.toNat) && decide (c.toNat ≤ 102) then some (c.toNat - 87)
    else if decide (65 ≤ c.toNat) && decide (c.toNat ≤ 70) then some (c.toNat - 55)
    else none
  v.filter (fun d => decide (d < radix))

/-- The digits of a NonDecimalIntegerLiteral after its `0x`, `0o` or `0b` marker. -/
def parseRadix (radix : Nat) (cs : List Char) : JSNumber :=
  if cs.isEmpty then JSNumber.nan
  else if cs.all (fun c => (radixDigitValue radix c).isSome) then
    JSNumber.fin false
      (cs.foldl (fun acc c => radix * acc + (radixDigitValue radix c).getD 0) 0) 0
  else JSNumber.nan

/-- The SignedInteger of an ExponentPart. -/
def parseExponent (cs : List Char) : Option Int :=
  match cs with
  | [] => none
  | c :: t =>
    if c = '+' then
      if !t.isEmpty && t.all isDecimalDigit then some (Int.ofNat (decimalValue t)) else none
    else if c = '-' then
      if !t.isEmpty && t.all isDecimalDigit then some (-Int.ofNat (decimalValue t)) else none
    else if cs.all isDecimalDigit then some (Int.ofNat (decimalValue cs)) else none

/-- A StrUnsignedDecimalLiteral: `Infinity`, or digits with an optional fraction and an optional
exponent part; at least one digit before the exponent. -/
def parseUnsignedDecimal (negative : Bool) (cs : List Char) : JSNumber :=
  if cs = ['I', 'n', 'f', 'i', 'n', 'i', 't', 'y'] then JSNumber.inf negative
  else
    let intPart := cs.takeWhile isDecimalDigit
    let rest := cs.dropWhile isDecimalDigit
    let fracPart := match rest with
      | [] => []
      | c :: t => if c = '.' then t.takeWhile isDecimalDigit else []
    let rest2 := match rest with
      | [] => []
      | c :: t => if c = '.' then t.dropWhile isDecimalDigit else rest
    if intPart.isEmpty && fracPart.isEmpty then JSNumber.nan
    else
      match rest2 with
      | [] => JSNumber.fin negative (decimalValue (intPart ++ fracPart)) (-Int.ofNat fracPart.length)
      | e :: t =>
        if e = 'e' ∨ e = 'E' then
          match parseExponent t with
          | some x =>
            JSNumber.fin negative (decimalValue (intPart ++ fracPart)) (x - Int.ofNat fracPart.length)
          | none => JSNumber.nan
        else JSNumber.nan

/-- Leading and trailing StrWhiteSpace removed. -/
def trimWhiteSpace (cs : List Char) : List Char :=
  ((cs.dropWhile isStrWhiteSpaceChar).reverse.dropWhile isStrWhiteSpaceChar).reverse

/-- StringToNumber of ECMAScript on the grammar StringNumericLiteral: an empty or blank string
is `+0`, a string outside the grammar is `NaN`. -/
def stringToNumber (s : String) : JSNumber :=
  match trimWhiteSpace s.data with
  | [] => JSNumber.fin false 0 0
  | [c] => if c = '+' ∨ c = '-' then JSNumber.nan else parseUnsignedDecimal false [c]
  | c :: d :: t =>
    if c = '0' ∧ (d = 'x' ∨ d = 'X') then parseRadix 16 t
    else if c = '0' ∧ (d = 'o' ∨ d = 'O') then parseRadix 8 t
    else if c = '0' ∧ (d = 'b' ∨ d = 'B') then parseRadix 2 t
    else if c = '+' then parseUnsignedDecimal false (d :: t)
    else if c = '-' then parseUnsignedDecimal true (d :: t)
    else parseUnsignedDecimal false (c :: d :: t)

/-- The result of `x <= 0` for a Number `x`: false for `NaN`; a positive mathematical value
compares as `<= 0` exactly when it rounds to `+0` in binary64, that is when it is at most
`2 ^ (-1075)`, half of the least positive double (a tie goes to the even neighbour `+0`);
`mantissa <<< 1075` is `mantissa * 2 ^ 1075`. -/
def JSNumber.lessEqZero : JSNumber → Bool
  | JSNumber.nan => false
  | JSNumber.inf negative => negative
  | JSNumber.fin negative mantissa exp10 =>
    negative || mantissa == 0 ||
      (decide (exp10 < 0) && decide (mantissa <<< 1075 ≤ 10 ^ (-exp10).toNat))

/-- The result of `x > 0` for a Number `x`. -/
def JSNumber.greaterZero : JSNumber → Bool
  | JSNumber.nan => false
  | x => !x.lessEqZero

/-- The expression `amount <= 0` of `addSponsor`, `amount` being the string of the input
field: the string is converted with StringToNumber and compared as a Number. -/
def amountLessEqZero (amount : String) : Bool :=
  (stringToNumber amount).lessEqZero

/-- The expression `!sponsorName`: only the empty string is falsy. -/
def isFalsy (s : String) : Bool :=
  s.data.isEmpty

/-! ## The numeric literal of `contractAddress` -/

/-- Number of binary digits of a natural number, by repeated halving (at most `fuel` times). -/
def bitLengthAux : Nat → Nat → Nat
  | 0, _ => 0
  | fuel + 1, n => if n = 0 then 0 else bitLengthAux fuel (n / 2) + 1

/-- Number of binary digits of a natural number. -/
def bitLength (n : Nat) : Nat :=
  bitLengthAux n n

/-- The Number value of a non-negative integer literal below `2 ^ 1024`: the nearest binary64
value, which keeps 53 significant bits and rounds a tie to the even significand. -/
def numberValue (mv : Nat) : Nat :=
  let len := bitLength mv
  if len ≤ 53 then mv
  else
    let shift := len - 53
    let q := mv / 2 ^ shift
    let r := mv % 2 ^ shift
    let half := 2 ^ (shift - 1)
    let q1 := if half < r ∨ (r = half ∧ q % 2 = 1) then q + 1 else q
    q1 * 2 ^ shift

/-- A non-negative integer is a binary64 value when it is a significand below `2 ^ 53` times a
power of two. -/
def IsBinary64Integer (n : Nat) : Prop :=
  ∃ m e : Nat, m < 2 ^ 53 ∧ n = m * 2 ^ e

/-- The digits written in line 1 of the source, read as an integer. -/
def contractAddressLiteral : Nat :=
  0xef48eb47752dcd2d7bb8fb2c2889ae11a4ca39df

/-- Line 1: `let contractAddress = 0xef48...39df;` is an unquoted numeric literal, so the variable
holds the Number value of the literal. -/
def contractAddress : Nat :=
  numberValue contractAddressLiteral

/-- Lines 2 to 4: the schema array, empty in the source. -/
def contractABI : List String :=
  []

/-! ## The conversions of `web3.utils` -/

/-- Modelled from the spec: the unit table of web3.js is not part of `src/`; the spec has
1 currency unit = `10 ^ 18` base units, so the unit `"ether"` has 18 fractional digits. -/
def etherDecimals : Nat :=
  18

/-- Modelled from the spec: helper of the conversions of web3.js, which are not part of
`src/`. The pieces of a string between its dots, as `split(".")` gives them. -/
def splitDots : List Char → List (List Char)
  | [] => [[]]
  | c :: cs =>
    if c = '.' then [] :: splitDots cs
    else
      match splitDots cs with
      | [] => [[c]]
      | piece :: pieces => (c :: piece) :: pieces

/-- Modelled from the spec: helper of the conversions of web3.js, which are not part of
`src/`. Zeros appended until the string has `width` characters. -/
def padRight (width : Nat) (cs : List Char) : List Char :=
  cs ++ List.replicate (width - cs.length) '0'

/-- Modelled from the spec: helper of the conversions of web3.js, which are not part of
`src/`. Zeros put in front until the string has `width` characters. -/
def padLeft (width : Nat) (cs : List Char) : List Char :=
  List.replicate (width - cs.length) '0' ++ cs

/-- Modelled from the spec: helper of the conversions of web3.js, which are not part of
`src/`. The fraction digits without their trailing zeros; a fraction of zeros only becomes
`0`. -/
def stripTrailingZeros (cs : List Char) : List Char :=
  let kept := (cs.reverse.dropWhile (fun c => c == '0')).reverse
  if kept.isEmpty then ['0'] else kept

/-- Modelled from the spec: the unsigned part of `web3.utils.toWei`, which is not part of
`src/`. The amount is "scaled by a fixed power-of-ten factor": whole part times `10 ^ 18` plus
the fraction digits padded to 18 places. `none` stands for a thrown error. -/
def toWeiUnsigned (ether : List Char) : Option Nat :=
  if ether = ['.'] then none
  else
    match splitDots ether with
    | [whole] =>
      let whole := if whole.isEmpty then ['0'] else whole
      some (decimalValue whole * 10 ^ etherDecimals + decimalValue (padRight etherDecimals ['0']))
    | [whole, fraction] =>
      let whole := if whole.isEmpty then ['0'] else whole
      let fraction := if fraction.isEmpty then ['0'] else fraction
      if etherDecimals < fraction.length then none
      else some (decimalValue whole * 10 ^ etherDecimals + decimalValue (padRight etherDecimals fraction))
    | _ => none

/-- Modelled from the spec: `web3.utils.toWei(amount, "ether")` belongs to the web3.js library,
which is not part of `src/`. The spec has the decimal amount string "converted to an integer
base-unit value", "scaled by a fixed power-of-ten factor" with 1 currency unit = `10 ^ 18` base
units, exactly; an amount that is not a plain decimal string (optional minus sign, digits, at
most one dot) or has more than 18 fractional digits has no exact integer of base units and the
conversion throws (`none`). -/
def toWei (amount : String) : Option Int :=
  let negative := match amount.data with
    | [] => false
    | c :: _ => c == '-'
  let ether := if negative then amount.data.drop 1 else amount.data
  if ether.isEmpty || !ether.all (fun c => isDecimalDigit c || c == '.') then none
  else
    match toWeiUnsigned ether with
    | none => none
    | some wei => some (if negative then -Int.ofNat wei else Int.ofNat wei)

/-- Modelled from the spec: the unsigned part of `web3.utils.fromWei`, which is not part of
`src/`. The decimal string of a number of base units: the quotient by `10 ^ 18`, then, unless
the remainder is zero, a dot and the remainder written with 18 digits without its trailing
zeros. -/
def fromWeiUnsigned (wei : Nat) : List Char :=
  let fraction := stripTrailingZeros (padLeft etherDecimals (Nat.toDigits 10 (wei % 10 ^ etherDecimals)))
  let whole := Nat.toDigits 10 (wei / 10 ^ etherDecimals)
  whole ++ (if fraction = ['0'] then [] else '.' :: fraction)

/-- Modelled from the spec: `web3.utils.fromWei(amount, "ether")` belongs to the web3.js library,
which is not part of `src/`. The spec has the flow "convert the integer amount to a decimal
string" with 1 currency unit = `10 ^ 18` base units: the decimal string of the absolute value,
with a minus sign in front for a negative amount. -/
def fromWei (amount : Int) : String :=
  let value := fromWeiUnsigned amount.natAbs
  String.mk (if amount < 0 then '-' :: value else value)

/-- A decimal digit string in the form a number is printed in: `0`, or digits not starting with
`0`. -/
def isCanonicalWhole (cs : List Char) : Bool :=
  cs.all isDecimalDigit && (cs == ['0'] || (!cs.isEmpty && cs.head? != some '0'))

/-- An unsigned amount in the form `fromWei` prints: a canonical whole part, then nothing, or a
dot and 1 to 18 fraction digits the last of which is not `0`. -/
def isCanonicalUnsigned (cs : List Char) : Bool :=
  let whole := cs.takeWhile isDecimalDigit
  let rest := cs.dropWhile isDecimalDigit
  isCanonicalWhole whole &&
    (match rest with
      | [] => true
      | c :: fraction =>
        c == '.' && fraction.all isDecimalDigit && !fraction.isEmpty &&
          decide (fraction.length ≤ etherDecimals) && fraction.getLast? != some '0')

/-- A decimal amount string in canonical form: an unsigned canonical amount, or a minus sign
followed by an unsigned canonical amount other than `0`. -/
def isCanonicalAmount (amount : String) : Bool :=
  match amount.data with
  | [] => false
  | c :: cs =>
    if c = '-' then isCanonicalUnsigned cs && cs != ['0'] else isCanonicalUnsigned (c :: cs)

/-- A decimal amount string that is exactly representable with 18 fractional digits: an
optional minus sign, at least one digit, and optionally a dot followed by at most 18 digits. -/
def isRepresentableAmount (amount : String) : Bool :=
  let cs := match amount.data with
    | [] => []
    | c :: t => if c = '-' then t else c :: t
  let whole := cs.takeWhile isDecimalDigit
  let rest := cs.dropWhile isDecimalDigit
  !whole.isEmpty &&
    (match rest with
      | [] => true
      | c :: fraction =>
        c == '.' && fraction.all isDecimalDigit && decide (fraction.length ≤ etherDecimals))

/-! ## State, environment and effects -/

/-- The injected capability provider `window.ethereum`, an object the page does not look into. -/
structure Provider where
  id : Nat
  deriving DecidableEq, Repr

/-- The value of `new Web3(window.ethereum)`: a library handle around the provider. -/
structure Web3 where
  provider : Provider
  deriving DecidableEq, Repr

/-- The value of `new web3.eth.Contract(contractABI, contractAddress)`. -/
structure Contract where
  abi : List String
  address : Nat
  deriving DecidableEq, Repr

/-- One record of the list returned by `getSponsors`. -/
structure SponsorRecord where
  name : String
  amount : Int
  deriving DecidableEq, Repr

/-- The observable effects of the flows. -/
inductive Event where
  | alert (message : String)
  | consoleLog (message : String) (account : Option String)
  | consoleError (message : String)
  | providerRequest (method : String)
  | getAccounts
  | send (method : String) (args : List String) (sender : Option String) (value : Option Int)
  | call (method : String)
  deriving DecidableEq, Repr

/-- The settled state of the promise an `async` function returns. -/
inductive Outcome where
  | fulfilled
  | rejected
  deriving DecidableEq, Repr

/-- The module-level variables of lines 6 to 8, the text of the `li` children of
`#sponsorList`, and the effects so far. -/
structure AppState where
  web3 : Option Web3
  contract : Option Contract
  userAccount : Option String
  sponsorList : List String
  trace : List Event
  deriving DecidableEq, Repr

/-- What the world outside the page answers during one run of a flow. A `none` or `false`
answer is a rejected promise or a thrown error. -/
structure Env where
  ethereum : Option Provider
  requestAccounts : Bool
  getAccounts : Option (List String)
  toWei : String → Option Int
  fromWei : Int → Option String
  sendResult : Bool
  getSponsors : Option (List SponsorRecord)

/-- The state when the script has been loaded and nothing has run. -/
def initialState : AppState :=
  { web3 := none, contract := none, userAccount := none, sponsorList := [], trace := [] }

/-- The state with one more effect recorded. -/
def AppState.emit (s : AppState) (e : Event) : AppState :=
  { s with trace := s.trace ++ [e] }

/-- The message of the validation alert of `addSponsor`. -/
def rejectionMessage : String :=
  "Enter valid sponsor name and amount."

/-- A contract `send` or `call`, the two kinds of network call on the contract. -/
def Event.isContractCall : Event → Bool
  | Event.send _ _ _ _ => true
  | Event.call _ => true
  | _ => false

/-- An alert shown to the user. -/
def Event.isAlert : Event → Bool
  | Event.alert _ => true
  | _ => false

/-- The `getSponsors` read call. -/
def Event.isGetSponsorsCall : Event → Bool
  | Event.call method => method == "getSponsors"
  | _ => false

/-- A transaction submitted with `send`. -/
def Event.isSend : Event → Bool
  | Event.send _ _ _ _ => true
  | _ => false

/-! ## The flows -/

/-- Line 57, the template literal: the text of the entry of one record; `none` when
`web3.utils` cannot be read because `web3` is `undefined`, or when `fromWei` throws. -/
def entryText (env : Env) (web3 : Option Web3) (sponsor : SponsorRecord) : Option String :=
  match web3 with
  | none => none
  | some _ =>
    match env.fromWei sponsor.amount with
    | none => none
    | some decimal => some (sponsor.name ++ " - " ++ decimal ++ " ETH")

/-- Lines 55 to 59, the `forEach` loop: one `li` is appended per record, in order, until the
callback throws. The result is the children of the list and whether the loop completed. -/
def renderSponsors (env : Env) (web3 : Option Web3) :
    List SponsorRecord → List String → List String × Bool
  | [], children => (children, true)
  | sponsor :: sponsors, children =>
    match entryText env web3 sponsor with
    | none => (children, false)
    | some text => renderSponsors env web3 sponsors (children ++ [text])

/-- Lines 49 to 63. Everything is inside the `try`, the promise is always fulfilled. -/
def fetchSponsors (env : Env) (s : AppState) : AppState × Outcome :=
  match s.contract with
  | none => (s.emit (Event.consoleError "Error fetching sponsors:"), Outcome.fulfilled)
  | some _ =>
    let s1 := s.emit (Event.call "getSponsors")
    match env.getSponsors with
    | none => (s1.emit (Event.consoleError "Error fetching sponsors:"), Outcome.fulfilled)
    | some sponsors =>
      let rendered := renderSponsors env s1.web3 sponsors []
      let s2 := { s1 with sponsorList := rendered.1 }
      if rendered.2 then (s2, Outcome.fulfilled)
      else (s2.emit (Event.consoleError "Error fetching sponsors:"), Outcome.fulfilled)

/-- Lines 11 to 23. -/
def connectWallet (env : Env) (s : AppState) : AppState × Outcome :=
  match env.ethereum with
  | none => (s.emit (Event.alert "Please install MetaMask!"), Outcome.fulfilled)
  | some provider =>
    let s1 := { s with web3 := some { provider := provider } }
    let s2 := s1.emit (Event.providerRequest "eth_requestAccounts")
    if !env.requestAccounts then (s2, Outcome.rejected)
    else
      let s3 := s2.emit Event.getAccounts
      match env.getAccounts with
      | none => (s3, Outcome.rejected)
      | some accounts =>
        let s4 := { s3 with userAccount := accounts.head? }
        let s5 := { s4 with contract := some { abi := contractABI, address := contractAddress } }
        let s6 := s5.emit (Event.consoleLog "Connected to MetaMask:" s5.userAccount)
        ((fetchSponsors env s6).1, Outcome.fulfilled)

/-- Lines 26 to 46; `sponsorName` and `amount` are the values of the two input fields. -/
def addSponsor (env : Env) (s : AppState) (sponsorName amount : String) : AppState × Outcome :=
  if isFalsy sponsorName || amountLessEqZero amount then
    (s.emit (Event.alert rejectionMessage), Outcome.fulfilled)
  else
    match s.web3 with
    | none => (s, Outcome.rejected)
    | some _ =>
      match env.toWei amount with
      | none => (s, Outcome.rejected)
      | some ethAmount =>
        match s.contract with
        | none => (s.emit (Event.consoleError "Error adding sponsor:"), Outcome.fulfilled)
        | some _ =>
          let s1 := s.emit (Event.send "addSponsor" [sponsorName] s.userAccount (some ethAmount))
          if env.sendResult then
            let s2 := s1.emit (Event.alert "Sponsor added successfully!")
            ((fetchSponsors env s2).1, Outcome.fulfilled)
          else (s1.emit (Event.consoleError "Error adding sponsor:"), Outcome.fulfilled)

/-- Lines 66 to 73. -/
def withdrawFunds (env : Env) (s : AppState) : AppState × Outcome :=
  match s.contract with
  | none => (s.emit (Event.consoleError "Error withdrawing funds:"), Outcome.fulfilled)
  | some _ =>
    let s1 := s.emit (Event.send "withdraw" [] s.userAccount none)
    if env.sendResult then (s1.emit (Event.alert "Funds withdrawn successfully!"), Outcome.fulfilled)
    else (s1.emit (Event.consoleError "Error withdrawing funds:"), Outcome.fulfilled)

/-- A user action after the page has loaded, with the values of the input fields. -/
inductive Action where
  | addSponsor (sponsorName amount : String)
  | fetchSponsors
  | withdrawFunds
  deriving DecidableEq, Repr

/-- One action run to completion in its environment. -/
def runAction (env : Env) (a : Action) (s : AppState) : AppState :=
  match a with
  | Action.addSponsor sponsorName amount => (addSponsor env s sponsorName amount).1
  | Action.fetchSponsors => (fetchSponsors env s).1
  | Action.withdrawFunds => (withdrawFunds env s).1

/-- A sequence of actions, each in its own environment, run one after the other. -/
def runActions : List (Env × Action) → AppState → AppState
  | [], s => s
  | (env, a) :: rest, s => runActions rest (runAction env a s)

/-- The environment in which the library conversions are those of `web3.utils`. -/
def web3Env (ethereum : Option Provider) (requestAccounts : Bool)
    (getAccounts : Option (List String)) (sendResult : Bool)
    (getSponsors : Option (List SponsorRecord)) : Env :=
  { ethereum := ethereum, requestAccounts := requestAccounts, getAccounts := getAccounts,
    toWei := toWei, fromWei := fun amount => some (fromWei amount), sendResult := sendResult,
    getSponsors := getSponsors }

/-- The effects recorded between an earlier state `s` and a later state `t`. -/
def eventsSince (s t : AppState) : List Event :=
  t.trace.drop s.trace.length

/-- A state after a successful connection, used as a concrete input. -/
def connectedState : AppState :=
  { web3 := some { provider := { id := 0 } },
    contract := some { abi := contractABI, address := contractAddress },
    userAccount := some "0x00000000000000000000000000000000000000aa",
    sponsorList := ["Old - 2 ETH"],
    trace := [] }

/-- The record of the fixture: 1.5 currency units in base units. -/
def aliceRecord : SponsorRecord :=
  { name := "Alice", amount := 1500000000000000000 }

/-- An environment with a provider whose authorization prompt is rejected. -/
def rejectedEnv : Env :=
  web3Env (some { id := 0 }) false none false none

/-- An environment with a provider whose authorization prompt is accepted, one account, and
transactions and read calls that succeed. -/
def grantedEnv : Env :=
  web3Env (some { id := 0 }) true (some ["0x00000000000000000000000000000000000000aa"]) true
    (some [])

/-- An environment in which the read call returns two records and the conversion of the
amount of the second one throws. -/
def secondConversionFailsEnv : Env :=
  { ethereum := some { id := 0 }, requestAccounts := true, getAccounts := some [],
    toWei := toWei,
    fromWei := fun amount => if amount = 1000000000000000000 then some "1" else none,
    sendResult := true,
    getSponsors := some [{ name := "Alice", amount := 1000000000000000000 },
      { name := "Bob", amount := 7 }] }

/-! ## Lemmas on the flows -/

theorem emit_trace (s : AppState) (e : Event) : (s.emit e).trace = s.trace ++ [e] := rfl

theorem eventsSince_append (s t : AppState) (evs : List Event) (h : t.trace = s.trace ++ evs) :
    eventsSince s t = evs := by
  simp [eventsSince, h]

theorem isFalsy_eq_false (sponsorName : String) (h : sponsorName ≠ "") :
    isFalsy sponsorName = false := by
  cases hd : sponsorName.data with
  | nil =>
    exfalso
    apply h
    exact String.ext hd
  | cons c cs => simp [isFalsy, hd]

theorem lessEqZero_of_greaterZero (x : JSNumber) (h : x.greaterZero = true) :
    x.lessEqZero = false := by
  cases x <;> simp_all [JSNumber.greaterZero]

/-- The loop renders the records up to the first one whose entry text cannot be built. -/
theorem renderSponsors_fst (env : Env) (web3 : Option Web3) (sponsors : List SponsorRecord)
    (children : List String) :
    (renderSponsors env web3 sponsors children).1 =
      children ++ (sponsors.takeWhile (fun r => (entryText env web3 r).isSome)).filterMap
        (entryText env web3) := by
  induction sponsors generalizing children with
  | nil => simp [renderSponsors]
  | cons r rs ih =>
    cases h : entryText env web3 r with
    | none => simp [renderSponsors, h, List.takeWhile]
    | some text => simp [renderSponsors, h, List.takeWhile, ih, List.filterMap_cons]

theorem fetchSponsors_contract (env : Env) (s : AppState) :
    (fetchSponsors env s).1.contract = s.contract := by
  unfold fetchSponsors
  cases hc : s.contract with
  | none => simp [AppState.emit, hc]
  | some c =>
    cases hg : env.getSponsors with
    | none => simp [AppState.emit, hc]
    | some sponsors =>
      simp only []
      split <;> simp [AppState.emit, hc]

/-- With a contract the listing flow issues one read call, possibly followed by a log. -/
theorem fetchSponsors_trace (env : Env) (s : AppState) (c : Contract) (hc : s.contract = some c) :
    (fetchSponsors env s).1.trace = s.trace ++ [Event.call "getSponsors"] ∨
      (fetchSponsors env s).1.trace =
        s.trace ++ [Event.call "getSponsors", Event.consoleError "Error fetching sponsors:"] := by
  unfold fetchSponsors
  simp only [hc]
  cases hg : env.getSponsors with
  | none => right; simp [AppState.emit]
  | some sponsors =>
    simp only []
    split
    · left; simp [AppState.emit]
    · right; simp [AppState.emit]

theorem addSponsor_contract (env : Env) (s : AppState) (sponsorName amount : String) :
    (addSponsor env s sponsorName amount).1.contract = s.contract := by
  unfold addSponsor
  split
  · rfl
  · cases hw : s.web3 with
    | none => rfl
    | some w =>
      cases hv : env.toWei amount with
      | none => rfl
      | some v =>
        cases hc : s.contract with
        | none => simp [AppState.emit, hc]
        | some c =>
          simp only []
          split
          · rw [fetchSponsors_contract]; simp [AppState.emit, hc]
          · simp [AppState.emit, hc]

theorem withdrawFunds_contract (env : Env) (s : AppState) :
    (withdrawFunds env s).1.contract = s.contract := by
  unfold withdrawFunds
  cases hc : s.contract with
  | none => simp [AppState.emit, hc]
  | some c =>
    simp only []
    split <;> simp [AppState.emit, hc]

theorem runAction_contract (env : Env) (a : Action) (s : AppState) :
    (runAction env a s).contract = s.contract := by
  cases a with
  | addSponsor n m => exact addSponsor_contract env s n m
  | fetchSponsors => exact fetchSponsors_contract env s
  | withdrawFunds => exact withdrawFunds_contract env s

/-- Without a contract no action adds a contract `send` or `call` to the trace. -/
theorem runAction_unset_calls (env : Env) (a : Action) (s : AppState) (hc : s.contract = none) :
    (runAction env a s).trace.filter Event.isContractCall =
      s.trace.filter Event.isContractCall := by
  cases a with
  | addSponsor n m =>
    simp only [runAction, addSponsor]
    split
    · simp [AppState.emit, Event.isContractCall]
    · cases hw : s.web3 with
      | none => rfl
      | some w =>
        cases hv : env.toWei m with
        | none => rfl
        | some v => simp [hc, AppState.emit, Event.isContractCall]
  | fetchSponsors => simp [runAction, fetchSponsors, hc, AppState.emit, Event.isContractCall]
  | withdrawFunds => simp [runAction, withdrawFunds, hc, AppState.emit, Event.isContractCall]

theorem runActions_unset_calls (runs : List (Env × Action)) (s : AppState)
    (hc : s.contract = none) :
    (runActions runs s).trace.filter Event.isContractCall =
      s.trace.filter Event.isContractCall := by
  induction runs generalizing s with
  | nil => rfl
  | cons r rest ih =>
    obtain ⟨env, a⟩ := r
    simp only [runActions]
    rw [ih _ (by rw [runAction_contract]; exact hc), runAction_unset_calls env a s hc]

/-! ## Lemmas on decimal strings -/

theorem isDecimalDigit_iff (c : Char) : isDecimalDigit c = true ↔ 48 ≤ c.toNat ∧ c.toNat ≤ 57 := by
  simp [isDecimalDigit]

theorem digitChar_digitValue (c : Char) (h : isDecimalDigit c = true) :
    Nat.digitChar (digitValue c) = c := by
  rw [isDecimalDigit_iff] at h
  have hc : c = Char.ofNat c.toNat := (Char.ofNat_toNat c).symm
  have hcases : c.toNat = 48 ∨ c.toNat = 49 ∨ c.toNat = 50 ∨ c.toNat = 51 ∨ c.toNat = 52 ∨
      c.toNat = 53 ∨ c.toNat = 54 ∨ c.toNat = 55 ∨ c.toNat = 56 ∨ c.toNat = 57 := by omega
  unfold digitValue
  rcases hcases with h1 | h1 | h1 | h1 | h1 | h1 | h1 | h1 | h1 | h1 <;>
    (rw [hc, h1]; rfl)

theorem digitValue_lt (c : Char) (h : isDecimalDigit c = true) : digitValue c < 10 := by
  rw [isDecimalDigit_iff] at h
  unfold digitValue
  omega

theorem digitValue_eq_zero (c : Char) (h : isDecimalDigit c = true) (h0 : digitValue c = 0) :
    c = '0' := by
  have := digitChar_digitValue c h
  rw [h0] at this
  exact this.symm

theorem decimalValue_foldl (cs : List Char) (a : Nat) :
    cs.foldl (fun acc c => 10 * acc + digitValue c) a = a * 10 ^ cs.length + decimalValue cs := by
  induction cs generalizing a with
  | nil => simp [decimalValue]
  | cons c t ih =>
    simp only [List.foldl_cons, decimalValue, List.length_cons]
    rw [ih, ih (10 * 0 + digitValue c)]
    ring

theorem decimalValue_cons (c : Char) (t : List Char) :
    decimalValue (c :: t) = digitValue c * 10 ^ t.length + decimalValue t := by
  simp only [decimalValue, List.foldl_cons]
  rw [decimalValue_foldl]
  simp [decimalValue]

theorem decimalValue_append (xs ys : List Char) :
    decimalValue (xs ++ ys) = decimalValue xs * 10 ^ ys.length + decimalValue ys := by
  simp only [decimalValue, List.foldl_append]
  rw [decimalValue_foldl]
  simp [decimalValue]

theorem decimalValue_replicate_zero (k : Nat) : decimalValue (List.replicate k '0') = 0 := by
  induction k with
  | zero => rfl
  | succ k ih =>
    rw [List.replicate_succ, decimalValue_cons, ih]
    simp [digitValue]

theorem decimalValue_eq_ofDigits (cs : List Char) :
    decimalValue cs = Nat.ofDigits 10 ((cs.map digitValue).reverse) := by
  induction cs with
  | nil => rfl
  | cons c t ih =>
    rw [decimalValue_cons, List.map_cons, List.reverse_cons, Nat.ofDigits_append, ← ih]
    simp
    ring

theorem decimalValue_lt (cs : List Char) (h : cs.all isDecimalDigit = true) :
    decimalValue cs < 10 ^ cs.length := by
  rw [decimalValue_eq_ofDigits]
  have := Nat.ofDigits_lt_base_pow_length (b := 10) (l := (cs.map digitValue).reverse)
    (by norm_num) (by
      intro x hx
      simp only [List.mem_reverse, List.mem_map] at hx
      obtain ⟨c, hc, rfl⟩ := hx
      exact digitValue_lt c (List.all_eq_true.mp h c hc))
  simpa using this

/-- The digits printed by `Nat.toDigits` are the digits of Mathlib, most significant first. -/
theorem toDigitsCore_eq_digits (fuel n : Nat) (acc : List Char) (hf : n < fuel) (hn : 0 < n) :
    Nat.toDigitsCore 10 fuel n acc = ((Nat.digits 10 n).map Nat.digitChar).reverse ++ acc := by
  induction fuel generalizing n acc with
  | zero => omega
  | succ fuel ih =>
    unfold Nat.toDigitsCore
    simp only []
    by_cases h0 : n / 10 = 0
    · have hlt : n < 10 := by omega
      rw [if_pos h0, Nat.digits_of_lt 10 n (by omega) hlt, Nat.mod_eq_of_lt hlt]
      simp
    · rw [if_neg h0, ih (n / 10) _ (by omega) (by omega)]
      rw [Nat.digits_def' (by norm_num : 1 < 10) hn]
      simp

theorem toDigits_eq_digits (n : Nat) (hn : 0 < n) :
    Nat.toDigits 10 n = ((Nat.digits 10 n).map Nat.digitChar).reverse := by
  unfold Nat.toDigits
  rw [toDigitsCore_eq_digits (n + 1) n [] (by omega) hn]
  simp

/-- Printing the value of a digit string without a leading zero gives the string back. -/
theorem toDigits_decimalValue (cs : List Char) (h : cs.all isDecimalDigit = true)
    (c : Char) (t : List Char) (hcs : cs = c :: t) (hc : c ≠ '0') :
    Nat.toDigits 10 (decimalValue cs) = cs := by
  have hall := List.all_eq_true.mp h
  have hlt : ∀ x ∈ (cs.map digitValue).reverse, x < 10 := by
    intro x hx
    simp only [List.mem_reverse, List.mem_map] at hx
    obtain ⟨d, hd, rfl⟩ := hx
    exact digitValue_lt d (hall d hd)
  have hlast : ∀ hne : (cs.map digitValue).reverse ≠ [],
      ((cs.map digitValue).reverse).getLast hne ≠ 0 := by
    intro hne
    subst hcs
    simp only [List.map_cons, List.reverse_cons]
    rw [List.getLast_append_singleton]
    intro h0
    exact hc (digitValue_eq_zero c (hall c (by simp)) h0)
  have hdig := Nat.digits_ofDigits 10 (by norm_num) _ hlt hlast
  have hpos : 0 < decimalValue cs := by
    rw [decimalValue_eq_ofDigits]
    rcases Nat.eq_zero_or_pos (Nat.ofDigits 10 (cs.map digitValue).reverse) with h0 | h0
    · rw [h0] at hdig
      subst hcs
      simp at hdig
    · exact h0
  rw [toDigits_eq_digits _ hpos, decimalValue_eq_ofDigits, hdig]
  simp only [List.map_reverse, List.reverse_reverse, List.map_map]
  conv_rhs => rw [← List.map_id cs]
  apply List.map_congr_left
  intro d hd
  exact digitChar_digitValue d (hall d hd)

theorem toDigits_isCanonicalWhole (whole : List Char) (h : isCanonicalWhole whole = true) :
    Nat.toDigits 10 (decimalValue whole) = whole := by
  simp only [isCanonicalWhole, Bool.and_eq_true, Bool.or_eq_true] at h
  obtain ⟨hall, h0 | hne⟩ := h
  · have : whole = ['0'] := by simpa using h0
    subst this
    decide
  · cases whole with
    | nil => simp at hne
    | cons c t =>
      apply toDigits_decimalValue (c :: t) hall c t rfl
      intro hc
      subst hc
      simp at hne

/-- Printing the value of a digit string and padding to its width gives the string back. -/
theorem padLeft_toDigits (fs : List Char) (hall : fs.all isDecimalDigit = true) (hne : fs ≠ []) :
    padLeft fs.length (Nat.toDigits 10 (decimalValue fs)) = fs := by
  induction fs with
  | nil => exact absurd rfl hne
  | cons c t ih =>
    by_cases hc : c = '0'
    · subst hc
      cases t with
      | nil => decide
      | cons d u =>
        have hall2 : (d :: u).all isDecimalDigit = true := by
          simp only [List.all_cons, Bool.and_eq_true] at hall
          simpa using hall.2
        have ih2 := ih hall2 (by simp)
        have hval : decimalValue ('0' :: d :: u) = decimalValue (d :: u) := by
          rw [decimalValue_cons]
          simp [digitValue]
        rw [hval]
        have hlen : (Nat.toDigits 10 (decimalValue (d :: u))).length ≤ (d :: u).length := by
          have := congrArg List.length ih2
          simp only [padLeft, List.length_append, List.length_replicate] at this
          omega
        unfold padLeft at ih2 ⊢
        have hsub : ('0' :: d :: u).length - (Nat.toDigits 10 (decimalValue (d :: u))).length =
            ((d :: u).length - (Nat.toDigits 10 (decimalValue (d :: u))).length) + 1 := by
          simp only [List.length_cons] at hlen ⊢
          omega
        rw [hsub, List.replicate_succ, List.cons_append, ih2]
    · rw [toDigits_decimalValue (c :: t) hall c t rfl hc]
      simp [padLeft]

theorem dropWhile_replicate_append (p : Char → Bool) (a : Char) (k : Nat) (l : List Char)
    (hp : p a = true) : (List.replicate k a ++ l).dropWhile p = l.dropWhile p := by
  induction k with
  | zero => rfl
  | succ k ih => simp [List.replicate_succ, List.dropWhile_cons, hp, ih]

/-- Trailing zeros after a fraction that ends in a non-zero digit are stripped, and only they. -/
theorem stripTrailingZeros_padRight (fs : List Char) (k : Nat) (hne : fs ≠ [])
    (hlast : fs.getLast? ≠ some '0') :
    stripTrailingZeros (fs ++ List.replicate k '0') = fs := by
  obtain ⟨init, d, rfl⟩ : ∃ init d, fs = init ++ [d] := by
    rcases List.eq_nil_or_concat fs with h | ⟨init, d, h⟩
    · exact absurd h hne
    · exact ⟨init, d, by simpa using h⟩
  have hd : d ≠ '0' := by
    intro h
    apply hlast
    simp [h]
  unfold stripTrailingZeros
  simp only [List.reverse_append, List.reverse_replicate, List.reverse_cons, List.reverse_nil,
    List.nil_append, List.singleton_append]
  rw [dropWhile_replicate_append _ _ _ _ (by simp)]
  simp [List.dropWhile_cons, hd]

theorem splitDots_digits (ds : List Char) (h : ds.all isDecimalDigit = true) :
    splitDots ds = [ds] := by
  induction ds with
  | nil => rfl
  | cons c t ih =>
    simp only [List.all_cons, Bool.and_eq_true] at h
    have hc : c ≠ '.' := by
      intro hc
      subst hc
      exact absurd h.1 (by decide)
    simp [splitDots, hc, ih h.2]

theorem splitDots_digits_dot (ds fs : List Char) (h : ds.all isDecimalDigit = true)
    (hf : fs.all isDecimalDigit = true) : splitDots (ds ++ '.' :: fs) = [ds, fs] := by
  induction ds with
  | nil => simp [splitDots, splitDots_digits fs hf]
  | cons c t ih =>
    simp only [List.all_cons, Bool.and_eq_true] at h
    have hc : c ≠ '.' := by
      intro hc
      subst hc
      exact absurd h.1 (by decide)
    simp [splitDots, hc, ih h.2]

theorem padRight_all (fs : List Char) (hf : fs.all isDecimalDigit = true) :
    (padRight etherDecimals fs).all isDecimalDigit = true := by
  simp only [padRight, List.all_append, hf, Bool.true_and, List.all_eq_true]
  intro c hc
  rw [(List.mem_replicate.mp hc).2]
  decide

theorem padRight_length (fs : List Char) (hf : fs.length ≤ etherDecimals) :
    (padRight etherDecimals fs).length = etherDecimals := by
  simp only [padRight, List.length_append, List.length_replicate]
  omega

/-- The decimal string of `whole * 10 ^ 18 + decimalValue (padRight 18 fraction)` is the
canonical whole part followed by what is left of the padded fraction. -/
theorem fromWeiUnsigned_parts (whole fs : List Char) (hw : isCanonicalWhole whole = true)
    (hf : fs.all isDecimalDigit = true) (hlen : fs.length ≤ etherDecimals) (hne : fs ≠ []) :
    fromWeiUnsigned (decimalValue whole * 10 ^ etherDecimals +
        decimalValue (padRight etherDecimals fs)) =
      whole ++ (if stripTrailingZeros (padRight etherDecimals fs) = ['0'] then []
        else '.' :: stripTrailingZeros (padRight etherDecimals fs)) := by
  have hpl := padRight_length fs hlen
  have hpa := padRight_all fs hf
  have hlt : decimalValue (padRight etherDecimals fs) < 10 ^ etherDecimals := by
    have := decimalValue_lt _ hpa
    rwa [hpl] at this
  have hpos : 0 < 10 ^ etherDecimals := Nat.pow_pos (by norm_num)
  have hmod : (decimalValue whole * 10 ^ etherDecimals +
      decimalValue (padRight etherDecimals fs)) % 10 ^ etherDecimals =
      decimalValue (padRight etherDecimals fs) := by
    rw [Nat.add_comm, Nat.add_mul_mod_self_right, Nat.mod_eq_of_lt hlt]
  have hdiv : (decimalValue whole * 10 ^ etherDecimals +
      decimalValue (padRight etherDecimals fs)) / 10 ^ etherDecimals = decimalValue whole := by
    rw [Nat.add_comm, Nat.add_mul_div_right _ _ hpos, Nat.div_eq_of_lt hlt, Nat.zero_add]
  have hpne : padRight etherDecimals fs ≠ [] := by
    intro h
    apply hne
    simp only [padRight, List.append_eq_nil] at h
    exact h.1
  have hpad : padLeft etherDecimals (Nat.toDigits 10 (decimalValue (padRight etherDecimals fs))) =
      padRight etherDecimals fs := by
    have := padLeft_toDigits _ hpa hpne
    rwa [hpl] at this
  unfold fromWeiUnsigned
  simp only [hmod, hdiv, hpad, toDigits_isCanonicalWhole whole hw]

theorem isCanonicalWhole_ne_nil (whole : List Char) (h : isCanonicalWhole whole = true) :
    whole ≠ [] := by
  intro hn
  subst hn
  simp [isCanonicalWhole] at h

theorem isCanonicalWhole_all (whole : List Char) (h : isCanonicalWhole whole = true) :
    whole.all isDecimalDigit = true := by
  simp only [isCanonicalWhole, Bool.and_eq_true] at h
  exact h.1

/-- The shape of a canonical unsigned amount. -/
theorem isCanonicalUnsigned_cases (cs : List Char) (h : isCanonicalUnsigned cs = true) :
    ∃ whole, isCanonicalWhole whole = true ∧
      (cs = whole ∨ ∃ fs, cs = whole ++ '.' :: fs ∧ fs.all isDecimalDigit = true ∧ fs ≠ [] ∧
        fs.length ≤ etherDecimals ∧ fs.getLast? ≠ some '0') := by
  unfold isCanonicalUnsigned at h
  simp only [Bool.and_eq_true] at h
  obtain ⟨hw, hrest⟩ := h
  refine ⟨cs.takeWhile isDecimalDigit, hw, ?_⟩
  have hsplit := List.takeWhile_append_dropWhile isDecimalDigit cs
  cases hd : cs.dropWhile isDecimalDigit with
  | nil =>
    left
    rw [hd, List.append_nil] at hsplit
    exact hsplit.symm
  | cons c fs =>
    right
    rw [hd] at hrest
    simp only [Bool.and_eq_true, beq_iff_eq, decide_eq_true_eq, Bool.not_eq_true',
      List.isEmpty_eq_false] at hrest
    obtain ⟨⟨⟨⟨hc, hall⟩, hne⟩, hlen⟩, hlast⟩ := hrest
    subst hc
    refine ⟨fs, ?_, hall, ?_, hlen, ?_⟩
    · rw [← hd]
      exact hsplit.symm
    · intro hnil
      subst hnil
      simp at hne
    · simpa using hlast

/-- The round trip on an unsigned canonical amount. -/
theorem fromWeiUnsigned_toWeiUnsigned (cs : List Char) (h : isCanonicalUnsigned cs = true) :
    ∃ wei, toWeiUnsigned cs = some wei ∧ fromWeiUnsigned wei = cs ∧
      (cs ≠ ['0'] → 0 < wei) := by
  obtain ⟨whole, hw, hcs | ⟨fs, hcs, hall, hne, hlen, hlast⟩⟩ := isCanonicalUnsigned_cases cs h
  · subst hcs
    have hwall := isCanonicalWhole_all cs hw
    have hwne := isCanonicalWhole_ne_nil cs hw
    have hdot : cs ≠ ['.'] := by
      intro hd
      subst hd
      exact absurd hwall (by decide)
    have hemp : cs.isEmpty = false := by
      cases cs with
      | nil => exact absurd rfl hwne
      | cons c t => rfl
    refine ⟨decimalValue cs * 10 ^ etherDecimals + decimalValue (padRight etherDecimals ['0']),
      ?_, ?_, ?_⟩
    · simp [toWeiUnsigned, hdot, splitDots_digits cs hwall, hemp]
    · rw [fromWeiUnsigned_parts cs ['0'] hw (by decide) (by decide) (by simp)]
      have : stripTrailingZeros (padRight etherDecimals ['0']) = ['0'] := by decide
      simp [this]
    · intro hz
      have hpos : 0 < decimalValue cs := by
        rcases Nat.eq_zero_or_pos (decimalValue cs) with h0 | h0
        · exfalso
          apply hz
          have := toDigits_isCanonicalWhole cs hw
          rw [h0] at this
          rw [← this]
          decide
        · exact h0
      have : 0 < 10 ^ etherDecimals := Nat.pow_pos (by norm_num)
      positivity
  · subst hcs
    have hwall := isCanonicalWhole_all whole hw
    have hwne := isCanonicalWhole_ne_nil whole hw
    have hdot : whole ++ '.' :: fs ≠ ['.'] := by
      cases whole with
      | nil => exact absurd rfl hwne
      | cons c t => simp
    have hemp : whole.isEmpty = false := by
      cases whole with
      | nil => exact absurd rfl hwne
      | cons c t => rfl
    have hfemp : fs.isEmpty = false := by
      cases fs with
      | nil => exact absurd rfl hne
      | cons c t => rfl
    have hstrip : stripTrailingZeros (padRight etherDecimals fs) = fs :=
      stripTrailingZeros_padRight fs _ hne hlast
    have hfs0 : fs ≠ ['0'] := by
      intro h0
      subst h0
      simp at hlast
    refine ⟨decimalValue whole * 10 ^ etherDecimals + decimalValue (padRight etherDecimals fs),
      ?_, ?_, ?_⟩
    · simp [toWeiUnsigned, hdot, splitDots_digits_dot whole fs hwall hall, hemp, hfemp,
        Nat.not_lt.mpr hlen]
    · rw [fromWeiUnsigned_parts whole fs hw hall hlen hne, hstrip]
      simp [hfs0]
    · intro _
      have hpa := padRight_all fs hall
      have hpne : padRight etherDecimals fs ≠ [] := by
        intro hn
        apply hne
        simp only [padRight, List.append_eq_nil] at hn
        exact hn.1
      have hpl := padRight_length fs hlen
      rcases Nat.eq_zero_or_pos (decimalValue (padRight etherDecimals fs)) with h0 | h0
      · exfalso
        have hpad := padLeft_toDigits _ hpa hpne
        rw [h0, hpl] at hpad
        have hs := hstrip
        rw [← hpad] at hs
        have hz : stripTrailingZeros (padLeft etherDecimals (Nat.toDigits 10 0)) = ['0'] := by
          decide
        rw [hz] at hs
        exact hfs0 hs.symm
      · omega

theorem isCanonicalUnsigned_chars (cs : List Char) (h : isCanonicalUnsigned cs = true) :
    cs.isEmpty = false ∧ cs.all (fun c => isDecimalDigit c || c == '.') = true := by
  obtain ⟨whole, hw, hcs | ⟨fs, hcs, hall, _, _, _⟩⟩ := isCanonicalUnsigned_cases cs h
  · subst hcs
    have hwall := List.all_eq_true.mp (isCanonicalWhole_all cs hw)
    have hwne := isCanonicalWhole_ne_nil cs hw
    constructor
    · cases cs with
      | nil => exact absurd rfl hwne
      | cons c t => rfl
    · rw [List.all_eq_true]
      intro c hc
      simp [hwall c hc]
  · subst hcs
    have hwall := List.all_eq_true.mp (isCanonicalWhole_all whole hw)
    have hfall := List.all_eq_true.mp hall
    constructor
    · cases whole <;> rfl
    · rw [List.all_eq_true]
      intro c hc
      simp only [List.mem_append, List.mem_cons] at hc
      rcases hc with hc | hc | hc
      · simp [hwall c hc]
      · simp [hc]
      · simp [hfall c hc]

/-! ## The claim on the conversions -/

/-- C3 as stated fails: `1.50` is a decimal amount string with two fractional digits, exactly
representable in base units, and converting it to base units and back yields `1.5`, not the
string itself. -/
theorem toWei_fromWei_not_identity :
    isRepresentableAmount "1.50" = true ∧ toWei "1.50" = some 1500000000000000000 ∧
      (toWei "1.50").map fromWei = some "1.5" ∧ (toWei "1.50").map fromWei ≠ some "1.50" := by
  decide

/-- C3 amended: for every decimal amount string in canonical form (an optional minus sign in
front of a non-zero amount, a whole part without superfluous leading zeros, and either no
fraction or a dot and 1 to 18 fraction digits not ending in 0), converting to base units with
`toWei` succeeds and converting the result back with `fromWei` yields the string unchanged. -/
theorem toWei_fromWei_canonical (a : String) (h : isCanonicalAmount a = true) :
    (toWei a).map fromWei = some a := by
  unfold isCanonicalAmount at h
  cases hd : a.data with
  | nil => simp [hd] at h
  | cons c cs =>
    have ha : a = String.mk (c :: cs) := String.ext hd
    rw [hd] at h
    by_cases hc : c = '-'
    · subst hc
      simp only [if_true, Bool.and_eq_true, bne_iff_ne, ne_eq] at h
      obtain ⟨hcan, hz⟩ := h
      obtain ⟨wei, hwei, hback, hpos⟩ := fromWeiUnsigned_toWeiUnsigned cs hcan
      obtain ⟨hemp, hchars⟩ := isCanonicalUnsigned_chars cs hcan
      have hp := hpos hz
      have hneg : -(wei : Int) < 0 := by omega
      have hto : toWei a = some (-(wei : Int)) := by
        simp [toWei, hd, hemp, hchars, hwei]
      rw [hto]
      simp only [Option.map_some', Option.some.injEq]
      unfold fromWei
      simp only [hneg, if_true, Int.natAbs_neg, Int.natAbs_ofNat, hback]
      exact ha.symm
    · have hcan : isCanonicalUnsigned (c :: cs) = true := by simpa [hc] using h
      obtain ⟨wei, hwei, hback, _⟩ := fromWeiUnsigned_toWeiUnsigned (c :: cs) hcan
      obtain ⟨hemp, hchars⟩ := isCanonicalUnsigned_chars (c :: cs) hcan
      have hnn : ¬ ((wei : Int) < 0) := by omega
      have hto : toWei a = some (wei : Int) := by
        have hcb : (c == '-') = false := by simpa using hc
        simp only [toWei, hd, hcb, Bool.false_eq_true, if_false, hwei]
        simp [hemp, hchars]
      rw [hto]
      simp only [Option.map_some', Option.some.injEq]
      unfold fromWei
      simp only [hnn, if_false, Int.natAbs_ofNat, hback]
      exact ha.symm

/-- C3 amended, at a concrete input. -/
theorem toWei_fromWei_canonical_witness : (toWei "1.5").map fromWei = some "1.5" :=
  toWei_fromWei_canonical "1.5" (by decide)

/-! ## The claims on the flows -/

/-- C1: when the sponsor name is empty, or the amount field is empty, or the amount compares as
`<= 0`, `addSponsor` shows the rejection alert and returns: in every state and environment the
state is unchanged apart from that one alert, so the run adds no contract `send` and no
contract `call`. -/
theorem addSponsor_rejects_invalid_input (env : Env) (s : AppState) (sponsorName amount : String)
    (h : sponsorName = "" ∨ amount = "" ∨ amountLessEqZero amount = true) :
    addSponsor env s sponsorName amount =
        (s.emit (Event.alert rejectionMessage), Outcome.fulfilled) ∧
      eventsSince s (addSponsor env s sponsorName amount).1 = [Event.alert rejectionMessage] ∧
      ((eventsSince s (addSponsor env s sponsorName amount).1).filter
        Event.isContractCall).length = 0 := by
  have hcond : (isFalsy sponsorName || amountLessEqZero amount) = true := by
    rcases h with h | h | h
    · subst h; rfl
    · subst h
      have : amountLessEqZero "" = true := by decide
      simp [this]
    · simp [h]
  have hrun : addSponsor env s sponsorName amount =
      (s.emit (Event.alert rejectionMessage), Outcome.fulfilled) := by
    simp [addSponsor, hcond]
  have hev : eventsSince s (addSponsor env s sponsorName amount).1 =
      [Event.alert rejectionMessage] := by
    rw [hrun]
    exact eventsSince_append _ _ _ (emit_trace _ _)
  refine ⟨hrun, hev, ?_⟩
  rw [hev]
  rfl

/-- C1 at a concrete input: an empty amount field next to a name. -/
theorem addSponsor_rejects_invalid_input_witness :
    addSponsor rejectedEnv connectedState "Alice" "" =
        (connectedState.emit (Event.alert rejectionMessage), Outcome.fulfilled) ∧
      eventsSince connectedState (addSponsor rejectedEnv connectedState "Alice" "").1 =
        [Event.alert rejectionMessage] ∧
      ((eventsSince connectedState (addSponsor rejectedEnv connectedState "Alice" "").1).filter
        Event.isContractCall).length = 0 :=
  addSponsor_rejects_invalid_input rejectedEnv connectedState "Alice" "" (Or.inr (Or.inl rfl))

/-- C2 at the failing input: the amount `abc` is not a number (StringToNumber gives `NaN`), the
comparison `amount <= 0` is false for it, and `addSponsor` with a name and this amount never
shows the rejection alert, in any state and environment; with the conversions of `web3.utils`
the run leaves the state and the trace as they were and ends in a rejected promise. -/
theorem addSponsor_nonNumeric_amount_shows_no_alert (env : Env) (s : AppState) :
    stringToNumber "abc" = JSNumber.nan ∧ amountLessEqZero "abc" = false ∧
      Event.alert rejectionMessage ∉ eventsSince s (addSponsor env s "Alice" "abc").1 ∧
      (env.toWei = toWei → addSponsor env s "Alice" "abc" = (s, Outcome.rejected)) := by
  have h1 : stringToNumber "abc" = JSNumber.nan := by decide
  have h2 : amountLessEqZero "abc" = false := by decide
  have h3 : isFalsy "Alice" = false := by decide
  have h4 : toWei "abc" = none := by decide
  have hself : eventsSince s s = [] := eventsSince_append s s [] (by simp)
  have hmsg : Event.alert rejectionMessage ≠ Event.alert "Sponsor added successfully!" := by
    decide
  refine ⟨h1, h2, ?_, ?_⟩
  · unfold addSponsor
    simp only [h2, h3, Bool.or_self, Bool.false_eq_true, if_false]
    cases hw : s.web3 with
    | none => simp [hself]
    | some w =>
      cases hv : env.toWei "abc" with
      | none => simp [hself]
      | some v =>
        cases hc : s.contract with
        | none =>
          simp only []
          rw [eventsSince_append s _ _ (emit_trace _ _)]
          simp
        | some c =>
          simp only []
          cases hs : env.sendResult with
          | false =>
            simp only [Bool.false_eq_true, if_false]
            rw [eventsSince_append s _ [Event.send "addSponsor" ["Alice"] s.userAccount (some v),
              Event.consoleError "Error adding sponsor:"] (by simp [AppState.emit])]
            simp
          | true =>
            simp only [if_true]
            have hc2 : ((s.emit (Event.send "addSponsor" ["Alice"] s.userAccount (some v))).emit
                (Event.alert "Sponsor added successfully!")).contract = some c := by
              simp [AppState.emit, hc]
            rcases fetchSponsors_trace env _ c hc2 with h | h
            · rw [eventsSince_append s _ [Event.send "addSponsor" ["Alice"] s.userAccount (some v),
                Event.alert "Sponsor added successfully!", Event.call "getSponsors"]
                (by rw [h]; simp [AppState.emit])]
              simp [hmsg]
            · rw [eventsSince_append s _ [Event.send "addSponsor" ["Alice"] s.userAccount (some v),
                Event.alert "Sponsor added successfully!", Event.call "getSponsors",
                Event.consoleError "Error fetching sponsors:"] (by rw [h]; simp [AppState.emit])]
              simp [hmsg]
  · intro hto
    unfold addSponsor
    simp only [h2, h3, Bool.or_self, Bool.false_eq_true, if_false]
    cases hw : s.web3 with
    | none => rfl
    | some w => simp [hto, h4]

/-- C4 as stated fails: for the one-record list with Alice and 1500000000000000000 base units
the rendered list is not the single entry `Alice - 1 ETH`. -/
theorem fetchSponsors_alice_not_one :
    (fetchSponsors (web3Env none false none false (some [aliceRecord])) connectedState).1.sponsorList
      ≠ ["Alice - 1 ETH"] := by
  decide

/-- C4 amended: in a connected state, when the read call returns the one-record list with
Alice and 1500000000000000000 base units, `fetchSponsors` renders exactly one entry, and its
text is `Alice - 1.5 ETH`. -/
theorem fetchSponsors_alice (ethereum : Option Provider) (requestAccounts : Bool)
    (getAccounts : Option (List String)) (sendResult : Bool) (s : AppState) (w : Web3)
    (c : Contract) (hw : s.web3 = some w) (hc : s.contract = some c) :
    (fetchSponsors (web3Env ethereum requestAccounts getAccounts sendResult (some [aliceRecord]))
      s).1.sponsorList = ["Alice - 1.5 ETH"] := by
  have h : fromWei 1500000000000000000 = "1.5" := by decide
  simp [fetchSponsors, hc, web3Env, renderSponsors, entryText, AppState.emit, hw, aliceRecord, h]

/-- C4 amended, at a concrete connected state. -/
theorem fetchSponsors_alice_witness :
    (fetchSponsors (web3Env none false none false (some [aliceRecord]))
      connectedState).1.sponsorList = ["Alice - 1.5 ETH"] :=
  fetchSponsors_alice none false none false connectedState { provider := { id := 0 } }
    { abi := contractABI, address := contractAddress } rfl rfl

/-- C5: when the read call succeeds and the amount of every returned record converts, the
rendered list has one entry per returned record, the i-th entry being name, ` - `, the converted
amount and ` ETH` of the i-th record: same length, same order, and nothing of the previous
rendering is left. -/
theorem fetchSponsors_renders_each_record (env : Env) (s : AppState) (c : Contract)
    (sponsors : List SponsorRecord) (hc : s.contract = some c)
    (hr : env.getSponsors = some sponsors)
    (hconv : ∀ r ∈ sponsors, s.web3 ≠ none ∧ env.fromWei r.amount ≠ none) :
    (fetchSponsors env s).1.sponsorList.length = sponsors.length ∧
      (fetchSponsors env s).1.sponsorList =
        sponsors.map (fun r => r.name ++ " - " ++ (env.fromWei r.amount).getD "" ++ " ETH") ∧
      ∀ (i : Nat) (hi : i < sponsors.length),
        (fetchSponsors env s).1.sponsorList[i]? =
          some ((sponsors.get ⟨i, hi⟩).name ++ " - " ++
            (env.fromWei (sponsors.get ⟨i, hi⟩).amount).getD "" ++ " ETH") := by
  have htext : ∀ r ∈ sponsors, entryText env s.web3 r =
      some (r.name ++ " - " ++ (env.fromWei r.amount).getD "" ++ " ETH") := by
    intro r hr
    obtain ⟨h1, h2⟩ := hconv r hr
    obtain ⟨w, hw⟩ := Option.ne_none_iff_exists'.mp h1
    obtain ⟨d, hd⟩ := Option.ne_none_iff_exists'.mp h2
    simp [entryText, hw, hd]
  have hall : sponsors.takeWhile (fun r => (entryText env s.web3 r).isSome) = sponsors := by
    rw [List.takeWhile_eq_self_iff]
    intro r hr
    simp [htext r hr]
  have hlist : (fetchSponsors env s).1.sponsorList =
      sponsors.map (fun r => r.name ++ " - " ++ (env.fromWei r.amount).getD "" ++ " ETH") := by
    have hfm : sponsors.filterMap (entryText env s.web3) =
        sponsors.map (fun r => r.name ++ " - " ++ (env.fromWei r.amount).getD "" ++ " ETH") := by
      rw [← List.filterMap_eq_map]
      apply List.filterMap_congr
      intro r hr
      simp [htext r hr]
    unfold fetchSponsors
    simp only [hc, hr]
    split <;> simp [AppState.emit, renderSponsors_fst, hall, hfm]
  refine ⟨by rw [hlist, List.length_map], hlist, ?_⟩
  intro i hi
  rw [hlist]
  simp [List.getElem?_map, List.getElem?_eq_getElem hi]

/-- C5 at a concrete input: three records, over a previous rendering of one entry. -/
theorem fetchSponsors_renders_each_record_witness :
    (fetchSponsors (web3Env none false none false (some [aliceRecord, aliceRecord, aliceRecord]))
        connectedState).1.sponsorList.length = 3 ∧
      (fetchSponsors (web3Env none false none false (some [aliceRecord, aliceRecord, aliceRecord]))
        connectedState).1.sponsorList =
        [aliceRecord, aliceRecord, aliceRecord].map
          (fun r => r.name ++ " - " ++ (some (fromWei r.amount)).getD "" ++ " ETH") ∧
      ∀ (i : Nat) (hi : i < 3),
        (fetchSponsors (web3Env none false none false (some [aliceRecord, aliceRecord, aliceRecord]))
          connectedState).1.sponsorList[i]? =
          some (([aliceRecord, aliceRecord, aliceRecord].get ⟨i, hi⟩).name ++ " - " ++
            (some (fromWei ([aliceRecord, aliceRecord, aliceRecord].get ⟨i, hi⟩).amount)).getD ""
              ++ " ETH") :=
  fetchSponsors_renders_each_record (web3Env none false none false
    (some [aliceRecord, aliceRecord, aliceRecord])) connectedState
    { abi := contractABI, address := contractAddress } [aliceRecord, aliceRecord, aliceRecord]
    rfl rfl (fun _ _ => ⟨by simp [connectedState], by simp [web3Env]⟩)

/-- C6 as stated fails: when the conversion of the second of two returned records throws, the
list after `fetchSponsors` is the single entry of the first record: it is not the prior list,
and it has fewer entries than there are returned records. -/
theorem fetchSponsors_not_atomic :
    (fetchSponsors secondConversionFailsEnv connectedState).1.sponsorList = ["Alice - 1 ETH"] ∧
      (fetchSponsors secondConversionFailsEnv connectedState).1.sponsorList ≠
        connectedState.sponsorList ∧
      secondConversionFailsEnv.getSponsors =
        some [{ name := "Alice", amount := 1000000000000000000 }, { name := "Bob", amount := 7 }] ∧
      (fetchSponsors secondConversionFailsEnv connectedState).1.sponsorList.length < 2 := by
  decide

/-- C6 amended: `fetchSponsors` leaves the prior list untouched when the contract is unset or
the read call fails; when the read call succeeds the prior entries are all removed and the list
holds the entries of the returned records before the first record whose amount fails to
convert, which is every record when every conversion succeeds. -/
theorem fetchSponsors_list (env : Env) (s : AppState) :
    (fetchSponsors env s).1.sponsorList =
      match s.contract, env.getSponsors with
      | some _, some sponsors =>
        (sponsors.takeWhile (fun r => s.web3.isSome && (env.fromWei r.amount).isSome)).filterMap
          (fun r => (env.fromWei r.amount).map (fun d => r.name ++ " - " ++ d ++ " ETH"))
      | _, _ => s.sponsorList := by
  have hsome : ∀ r : SponsorRecord, (entryText env s.web3 r).isSome =
      (s.web3.isSome && (env.fromWei r.amount).isSome) := by
    intro r
    cases hw : s.web3 <;> cases hd : env.fromWei r.amount <;> simp [entryText, hw, hd]
  cases hc : s.contract with
  | none => simp [fetchSponsors, hc, AppState.emit]
  | some c =>
    cases hr : env.getSponsors with
    | none => simp [fetchSponsors, hc, hr, AppState.emit]
    | some sponsors =>
      have hlist : (fetchSponsors env s).1.sponsorList =
          (sponsors.takeWhile (fun r => (entryText env s.web3 r).isSome)).filterMap
            (entryText env s.web3) := by
        unfold fetchSponsors
        simp only [hc, hr]
        split <;> simp [AppState.emit, renderSponsors_fst]
      rw [hlist]
      simp only [hsome]
      apply List.filterMap_congr
      intro r hr
      have hr2 := List.mem_takeWhile_imp hr
      simp only [Bool.and_eq_true] at hr2
      obtain ⟨w, hw⟩ := Option.isSome_iff_exists.mp hr2.1
      cases hd : env.fromWei r.amount <;> simp [entryText, hw, hd]

/-- C7 as stated fails: after a rejected authorization prompt the provider handle is retained,
`web3` wraps the injected provider. -/
theorem connectWallet_rejected_keeps_web3 :
    (connectWallet rejectedEnv initialState).1.web3 = some { provider := { id := 0 } } ∧
      (connectWallet rejectedEnv initialState).1.web3 ≠ none := by
  decide

/-- C7 amended: from the initial state, with a provider present and the authorization prompt
rejected, `connectWallet` ends in a rejected promise with `userAccount` and `contract` still
unset and `web3` holding the wrapper of the provider; whatever runs of `addSponsor`,
`fetchSponsors` and `withdrawFunds` follow, in whatever environments and with whatever inputs,
the trace holds no contract `send` and no contract `call`. -/
theorem connectWallet_rejected_no_contract_call (env : Env) (provider : Provider)
    (hp : env.ethereum = some provider) (hr : env.requestAccounts = false)
    (runs : List (Env × Action)) :
    (connectWallet env initialState).2 = Outcome.rejected ∧
      (connectWallet env initialState).1.userAccount = none ∧
      (connectWallet env initialState).1.contract = none ∧
      (connectWallet env initialState).1.web3 = some { provider := provider } ∧
      (runActions runs (connectWallet env initialState).1).contract = none ∧
      (runActions runs (connectWallet env initialState).1).trace.filter Event.isContractCall
        = [] := by
  have hrun : connectWallet env initialState =
      (({ initialState with web3 := some { provider := provider } } : AppState).emit
        (Event.providerRequest "eth_requestAccounts"), Outcome.rejected) := by
    simp [connectWallet, hp, hr]
  have hc : (connectWallet env initialState).1.contract = none := by
    rw [hrun]; rfl
  have hkeep : ∀ (rs : List (Env × Action)) (s : AppState),
      (runActions rs s).contract = s.contract := by
    intro rs
    induction rs with
    | nil => intro s; rfl
    | cons r rest ih =>
      intro s
      obtain ⟨e, a⟩ := r
      simp only [runActions]
      rw [ih, runAction_contract]
  refine ⟨by rw [hrun], by rw [hrun]; rfl, hc, by rw [hrun]; rfl, by rw [hkeep, hc], ?_⟩
  rw [runActions_unset_calls runs _ hc, hrun]
  rfl

/-- C7 amended, at a concrete input: a rejected prompt followed by the three flows. -/
theorem connectWallet_rejected_no_contract_call_witness :
    (connectWallet rejectedEnv initialState).2 = Outcome.rejected ∧
      (connectWallet rejectedEnv initialState).1.userAccount = none ∧
      (connectWallet rejectedEnv initialState).1.contract = none ∧
      (connectWallet rejectedEnv initialState).1.web3 = some { provider := { id := 0 } } ∧
      (runActions [(rejectedEnv, Action.addSponsor "Alice" "1.5"),
          (rejectedEnv, Action.fetchSponsors), (rejectedEnv, Action.withdrawFunds)]
        (connectWallet rejectedEnv initialState).1).contract = none ∧
      (runActions [(rejectedEnv, Action.addSponsor "Alice" "1.5"),
          (rejectedEnv, Action.fetchSponsors), (rejectedEnv, Action.withdrawFunds)]
        (connectWallet rejectedEnv initialState).1).trace.filter Event.isContractCall = [] :=
  connectWallet_rejected_no_contract_call rejectedEnv { id := 0 } rfl rfl
    [(rejectedEnv, Action.addSponsor "Alice" "1.5"), (rejectedEnv, Action.fetchSponsors),
      (rejectedEnv, Action.withdrawFunds)]

/-- C8 as stated fails: with the provider present and the authorization request rejected,
`connectWallet` shows no alert; its only effect is the one request, and its promise is
rejected. -/
theorem connectWallet_rejected_shows_no_alert :
    (connectWallet rejectedEnv initialState).1.trace.filter Event.isAlert = [] ∧
      (connectWallet rejectedEnv initialState).1.trace =
        [Event.providerRequest "eth_requestAccounts"] ∧
      (connectWallet rejectedEnv initialState).2 = Outcome.rejected := by
  decide

/-- C8 amended: a `connectWallet` run that fails for an absent provider shows the alert
`Please install MetaMask!` and does nothing else; a run that fails for a rejected authorization
request shows no alert, makes that one request and no other (no retry), and its promise is
rejected. -/
theorem connectWallet_failure (env : Env) (s : AppState)
    (h : env.ethereum = none ∨ env.requestAccounts = false) :
    (env.ethereum = none →
        connectWallet env s = (s.emit (Event.alert "Please install MetaMask!"), Outcome.fulfilled) ∧
        eventsSince s (connectWallet env s).1 = [Event.alert "Please install MetaMask!"]) ∧
      (env.ethereum ≠ none →
        (connectWallet env s).2 = Outcome.rejected ∧
        eventsSince s (connectWallet env s).1 = [Event.providerRequest "eth_requestAccounts"] ∧
        (eventsSince s (connectWallet env s).1).filter Event.isAlert = []) := by
  constructor
  · intro hnone
    have hrun : connectWallet env s =
        (s.emit (Event.alert "Please install MetaMask!"), Outcome.fulfilled) := by
      simp [connectWallet, hnone]
    refine ⟨hrun, ?_⟩
    rw [hrun]
    exact eventsSince_append _ _ _ (emit_trace _ _)
  · intro hsome
    obtain ⟨p, hp⟩ := Option.ne_none_iff_exists'.mp hsome
    have hr : env.requestAccounts = false := by
      rcases h with h | h
      · exact absurd h hsome
      · exact h
    have hrun : connectWallet env s =
        (({ s with web3 := some { provider := p } } : AppState).emit
          (Event.providerRequest "eth_requestAccounts"), Outcome.rejected) := by
      simp [connectWallet, hp, hr]
    have hev : eventsSince s (connectWallet env s).1 =
        [Event.providerRequest "eth_requestAccounts"] := by
      rw [hrun]
      exact eventsSince_append _ _ _ rfl
    refine ⟨by rw [hrun], hev, ?_⟩
    rw [hev]
    rfl

/-- C8 amended, at a concrete input: the rejected authorization request. -/
theorem connectWallet_failure_witness :
    (rejectedEnv.ethereum = none →
        connectWallet rejectedEnv initialState =
          (initialState.emit (Event.alert "Please install MetaMask!"), Outcome.fulfilled) ∧
        eventsSince initialState (connectWallet rejectedEnv initialState).1 =
          [Event.alert "Please install MetaMask!"]) ∧
      (rejectedEnv.ethereum ≠ none →
        (connectWallet rejectedEnv initialState).2 = Outcome.rejected ∧
        eventsSince initialState (connectWallet rejectedEnv initialState).1 =
          [Event.providerRequest "eth_requestAccounts"] ∧
        (eventsSince initialState (connectWallet rejectedEnv initialState).1).filter
          Event.isAlert = []) :=
  connectWallet_failure rejectedEnv initialState (Or.inr rfl)

/-- C9 as stated fails: in a connected state the name `Alice` with the amount
`0.0000000000000000001` is a valid input (the name is not empty and the amount compares as
greater than 0), yet no transaction is submitted: the amount has 19 fractional digits, the
conversion to base units throws, and the run ends in a rejected promise with no effect. -/
theorem addSponsor_valid_input_without_transaction :
    isFalsy "Alice" = false ∧
      (stringToNumber "0.0000000000000000001").greaterZero = true ∧
      addSponsor (web3Env none false none true (some [])) connectedState "Alice"
        "0.0000000000000000001" = (connectedState, Outcome.rejected) ∧
      (eventsSince connectedState (addSponsor (web3Env none false none true (some []))
        connectedState "Alice" "0.0000000000000000001").1).filter Event.isSend = [] := by
  have hrun : addSponsor (web3Env none false none true (some [])) connectedState "Alice"
      "0.0000000000000000001" = (connectedState, Outcome.rejected) := by
    set_option maxRecDepth 8000 in decide
  refine ⟨by decide, by decide, hrun, ?_⟩
  rw [hrun]
  rfl

/-- C9 amended: in a connected state, for a non-empty name and an amount that compares as
greater than 0 and that `toWei` converts to the value `v`, `addSponsor` submits exactly one
transaction, `addSponsor(name)` with the account `userAccount` as origin and `v` as value.
When the transaction succeeds, the confirmation alert follows and then the listing flow runs
once, issuing exactly one `getSponsors` read call. When the transaction fails, the failure is
logged, no alert is shown, no read call is issued and the rendered list is unchanged. -/
theorem addSponsor_valid_input (env : Env) (s : AppState) (sponsorName amount : String)
    (w : Web3) (c : Contract) (v : Int) (hn : sponsorName ≠ "")
    (ha : (stringToNumber amount).greaterZero = true) (hw : s.web3 = some w)
    (hc : s.contract = some c) (hv : env.toWei amount = some v) :
    (eventsSince s (addSponsor env s sponsorName amount).1).filter Event.isSend =
        [Event.send "addSponsor" [sponsorName] s.userAccount (some v)] ∧
      (env.sendResult = true →
        (addSponsor env s sponsorName amount).1 =
          (fetchSponsors env
            ((s.emit (Event.send "addSponsor" [sponsorName] s.userAccount (some v))).emit
              (Event.alert "Sponsor added successfully!"))).1 ∧
        (eventsSince s (addSponsor env s sponsorName amount).1).take 3 =
          [Event.send "addSponsor" [sponsorName] s.userAccount (some v),
            Event.alert "Sponsor added successfully!", Event.call "getSponsors"] ∧
        ((eventsSince s (addSponsor env s sponsorName amount).1).filter
          Event.isGetSponsorsCall).length = 1) ∧
      (env.sendResult = false →
        eventsSince s (addSponsor env s sponsorName amount).1 =
          [Event.send "addSponsor" [sponsorName] s.userAccount (some v),
            Event.consoleError "Error adding sponsor:"] ∧
        (addSponsor env s sponsorName amount).1.sponsorList = s.sponsorList) := by
  have hcond : (isFalsy sponsorName || amountLessEqZero amount) = false := by
    simp [isFalsy_eq_false sponsorName hn, amountLessEqZero, lessEqZero_of_greaterZero _ ha]
  cases hs : env.sendResult with
  | false =>
    have hrun : addSponsor env s sponsorName amount =
        (((s.emit (Event.send "addSponsor" [sponsorName] s.userAccount (some v))).emit
          (Event.consoleError "Error adding sponsor:")), Outcome.fulfilled) := by
      simp [addSponsor, hcond, hw, hv, hc, hs]
    have hev : eventsSince s (addSponsor env s sponsorName amount).1 =
        [Event.send "addSponsor" [sponsorName] s.userAccount (some v),
          Event.consoleError "Error adding sponsor:"] := by
      rw [hrun]
      exact eventsSince_append _ _ _ (by simp [AppState.emit])
    refine ⟨by rw [hev]; rfl, (by intro h; cases h), fun _ => ⟨hev, by rw [hrun]; rfl⟩⟩
  | true =>
    have hrun : addSponsor env s sponsorName amount =
        ((fetchSponsors env
          ((s.emit (Event.send "addSponsor" [sponsorName] s.userAccount (some v))).emit
            (Event.alert "Sponsor added successfully!"))).1, Outcome.fulfilled) := by
      simp [addSponsor, hcond, hw, hv, hc, hs]
    have hc2 : ((s.emit (Event.send "addSponsor" [sponsorName] s.userAccount (some v))).emit
        (Event.alert "Sponsor added successfully!")).contract = some c := by
      simp [AppState.emit, hc]
    have hev : eventsSince s (addSponsor env s sponsorName amount).1 =
          [Event.send "addSponsor" [sponsorName] s.userAccount (some v),
            Event.alert "Sponsor added successfully!", Event.call "getSponsors"] ∨
        eventsSince s (addSponsor env s sponsorName amount).1 =
          [Event.send "addSponsor" [sponsorName] s.userAccount (some v),
            Event.alert "Sponsor added successfully!", Event.call "getSponsors",
            Event.consoleError "Error fetching sponsors:"] := by
      rw [hrun]
      rcases fetchSponsors_trace env _ c hc2 with h | h
      · left
        exact eventsSince_append _ _ _ (by rw [h]; simp [AppState.emit])
      · right
        exact eventsSince_append _ _ _ (by rw [h]; simp [AppState.emit])
    refine ⟨?_, fun _ => ⟨by rw [hrun], ?_, ?_⟩, by intro h; cases h⟩
    · rcases hev with h | h <;> rw [h] <;> rfl
    · rcases hev with h | h <;> rw [h] <;> rfl
    · rcases hev with h | h <;> rw [h] <;> rfl

/-- C9 amended, at a concrete input: 1.5 units from a connected state, transaction accepted. -/
theorem addSponsor_valid_input_witness :
    (eventsSince connectedState (addSponsor (web3Env none false none true (some []))
        connectedState "Alice" "1.5").1).filter Event.isSend =
        [Event.send "addSponsor" ["Alice"] connectedState.userAccount
          (some 1500000000000000000)] ∧
      ((web3Env none false none true (some [])).sendResult = true →
        (addSponsor (web3Env none false none true (some [])) connectedState "Alice" "1.5").1 =
          (fetchSponsors (web3Env none false none true (some []))
            ((connectedState.emit (Event.send "addSponsor" ["Alice"] connectedState.userAccount
              (some 1500000000000000000))).emit
              (Event.alert "Sponsor added successfully!"))).1 ∧
        (eventsSince connectedState (addSponsor (web3Env none false none true (some []))
          connectedState "Alice" "1.5").1).take 3 =
          [Event.send "addSponsor" ["Alice"] connectedState.userAccount
              (some 1500000000000000000),
            Event.alert "Sponsor added successfully!", Event.call "getSponsors"] ∧
        ((eventsSince connectedState (addSponsor (web3Env none false none true (some []))
          connectedState "Alice" "1.5").1).filter Event.isGetSponsorsCall).length = 1) ∧
      ((web3Env none false none true (some [])).sendResult = false →
        eventsSince connectedState (addSponsor (web3Env none false none true (some []))
          connectedState "Alice" "1.5").1 =
          [Event.send "addSponsor" ["Alice"] connectedState.userAccount
              (some 1500000000000000000),
            Event.consoleError "Error adding sponsor:"] ∧
        (addSponsor (web3Env none false none true (some [])) connectedState "Alice"
          "1.5").1.sponsorList = connectedState.sponsorList) :=
  addSponsor_valid_input (web3Env none false none true (some [])) connectedState "Alice" "1.5"
    { provider := { id := 0 } } { abi := contractABI, address := contractAddress }
    1500000000000000000 (by decide) (by decide) rfl rfl (by decide)

/-- C10 at the code: the literal of line 1 is odd and has 160 binary digits, so it is not a
binary64 value; the value `contractAddress` holds is the literal rounded to 53 significant
bits, `0xef48eb47752dd` followed by 27 zero hex digits, which differs from the digits written
in the source, and it is this rounded value that a successful `connectWallet` passes to the
Contract constructor. -/
theorem contractAddress_loses_precision :
    ¬ IsBinary64Integer contractAddressLiteral ∧
      contractAddress = 0xef48eb47752dd000000000000000000000000000 ∧
      contractAddress ≠ contractAddressLiteral ∧
      (connectWallet grantedEnv initialState).1.contract =
        some { abi := [], address := 0xef48eb47752dd000000000000000000000000000 } := by
  have hval : contractAddress = 0xef48eb47752dd000000000000000000000000000 := by
    set_option maxRecDepth 4000 in decide
  refine ⟨?_, hval, ?_, ?_⟩
  · rintro ⟨m, e, hm, he⟩
    have hodd : contractAddressLiteral % 2 = 1 := by decide
    cases e with
    | zero =>
      have hbig : 2 ^ 53 ≤ contractAddressLiteral := by decide
      simp at he
      omega
    | succ k =>
      rw [pow_succ, ← Nat.mul_assoc] at he
      omega
  · rw [hval]
    decide
  · have hrun : (connectWallet grantedEnv initialState).1.contract =
        some { abi := contractABI, address := contractAddress } := by
      decide
    rw [hrun, hval]
    rfl

end SponsorTracker
